import Mathlib

/-!
Verification of the FASTA sequence-length analysis script
(`src/count_long_sequences.py`) against its specification.

The development shallowly embeds the three program stages:
  - the record parser (delegated by the source to `Bio.SeqIO.parse`, hence
    modelled from the spec, section 4.1 and 6);
  - the corpus analyzer `count_long_sequences` (lines 17-42);
  - the distribution binner and report writer `generate_report`
    (lines 139-213), including the order in which the report chunks are
    written to the output file and the points at which a Python exception
    would be raised;
  - the `main` pipeline sequencing (lines 254-263), including the fact that
    `plot_length_distribution` evaluates `min(all_lengths)` (line 107) and
    therefore raises `ValueError` on an empty corpus before the report file
    is opened.

Machine integers are embedded as `Int`/`Nat` (Python integers are unbounded,
so no overflow modelling is needed); the floating-point percentage
arithmetic of the report is embedded over `Rat`.
-/

namespace CountLongSeq

/-- Exception kinds observable from a run of the script.  `valueError` and
`zeroDivisionError` are the Python built-ins raised by `min([])` /
`max([])` and by a division by zero; `formatError` (with the offending line
number) and `ioError` are the parse-stage failures named by the spec;
`emptyCorpusError` is the error kind the spec claims exists for an empty
corpus (the source never raises it, which is part of what is checked
below). -/
inductive PyError where
  | valueError : PyError
  | zeroDivisionError : PyError
  | formatError : Nat → PyError
  | ioError : PyError
  | emptyCorpusError : PyError
  deriving DecidableEq, Repr

/-- A parsed sequence record, as produced by the parse stage: the identifier
(`record.id`) and the raw sequence body (`str(record.seq)`, the
concatenation of the stripped body lines of the FASTA record), kept as a
character list. -/
structure FastaRecord where
  id : String
  seq : List Char
  deriving DecidableEq, Repr

/-- Embeds `str(record.seq).replace("-", "")` (line 34): the pattern is the
single character `'-'` and the replacement is empty, so the call removes
every occurrence of `'-'` from the string, scanning left to right. -/
def removeGaps : List Char → List Char
  | [] => []
  | c :: cs => if c = '-' then removeGaps cs else c :: removeGaps cs

/-- Embeds lines 34-35: `seq_length = len(cleaned_seq)` where `cleaned_seq`
is the body with every gap character removed. -/
def seqLength (s : List Char) : Nat := (removeGaps s).length

/-- The four values returned by `count_long_sequences` (line 42). -/
structure AnalyzerResult where
  long_count : Nat
  total_count : Nat
  long_ids : List String
  all_lengths : List Nat
  deriving DecidableEq, Repr

/-- Embeds the accumulation loop of `count_long_sequences` (lines 29-42).
The Python loop walks the parsed records left to right, incrementing
`total_count`, appending `seq_length` to `all_lengths`, and, when
`seq_length > min_length` (strict), incrementing `long_count` and appending
`record.id` to `long_ids`.  The embedding is the equivalent head-first
recursion: the head record contributes one to the counts and the front
element of the accumulated lists, so both lists come out in parse order
exactly as the loop produces them. -/
def count_long_sequences : List FastaRecord → Int → AnalyzerResult
  | [], _ => ⟨0, 0, [], []⟩
  | r :: rest, min_length =>
    let seq_length := seqLength r.seq
    let tail := count_long_sequences rest min_length
    if (seq_length : Int) > min_length then
      ⟨tail.long_count + 1, tail.total_count + 1,
        r.id :: tail.long_ids, seq_length :: tail.all_lengths⟩
    else
      ⟨tail.long_count, tail.total_count + 1,
        tail.long_ids, seq_length :: tail.all_lengths⟩

/-- Embeds the inner first-match loop of the binner (lines 190-198) unrolled
over the constant boundary list `bins = [0, 100, 300, min_length, 500, 1000,
float('inf')]` (line 184).  The loop tries `bins[i] <= length < bins[i+1]`
for `i = 0..5` in order and `break`s at the first hit; the `for`-`else`
branch tests `length >= bins[-1]`, i.e. `length >= inf`, which is false for
every finite length, so it is the final `none`.  `length < inf` in the sixth
range is always true, leaving only `1000 <= length`. -/
def bucketIndex (min_length : Int) (length : Int) : Option Nat :=
  if 0 ≤ length ∧ length < 100 then some 0
  else if 100 ≤ length ∧ length < 300 then some 1
  else if 300 ≤ length ∧ length < min_length then some 2
  else if min_length ≤ length ∧ length < 500 then some 3
  else if 500 ≤ length ∧ length < 1000 then some 4
  else if 1000 ≤ length then some 5
  else none

/-- Embeds the outer loop of lines 190-198 viewed per bucket: the count in
cell `i` of `bin_counts` after the loop is one per length whose first
matching range is range `i`. -/
def binCountsLoop (min_length : Int) : List Int → Nat → Nat
  | [], _ => 0
  | L :: rest, i =>
    (if bucketIndex min_length L = some i then 1 else 0) +
      binCountsLoop min_length rest i

/-- The sum of the six bucket counts that the report actually prints: line
200 zips the six labels with `bin_counts`, truncating the seventh
(dead) cell that `[0] * len(bins)` allocated at line 190. -/
def sumSixCounts (min_length : Int) (lengths : List Int) : Nat :=
  binCountsLoop min_length lengths 0 + binCountsLoop min_length lengths 1 +
    binCountsLoop min_length lengths 2 + binCountsLoop min_length lengths 3 +
    binCountsLoop min_length lengths 4 + binCountsLoop min_length lengths 5

/-- The six bucket labels of lines 185-188. -/
def bucketLabels (min_length : Int) : List String :=
  ["<100", "100-300", "300-" ++ toString min_length,
    toString min_length ++ "-500", "500-1000", ">1000"]

/-- Lengths are Python non-negative integers; the binner compares them with
the (possibly negative) threshold, so they are cast into `Int`. -/
def natsToInts (xs : List Nat) : List Int := xs.map Int.ofNat

/-- The per-bucket percentage `percent = count / total_count * 100` of line
201, in exact rational arithmetic. -/
def distPercent (min_length : Int) (lengths : List Nat) (total_count : Nat)
    (i : Nat) : Rat :=
  (binCountsLoop min_length (natsToInts lengths) i : Rat) /
    (total_count : Rat) * 100

/-- Python `min` over a nonempty list (line 176). -/
def pyMin (x : Nat) (xs : List Nat) : Nat := xs.foldl Nat.min x

/-- Python `max` over a nonempty list (line 177). -/
def pyMax (x : Nat) (xs : List Nat) : Nat := xs.foldl Nat.max x

/-- The arithmetic mean `sum(all_lengths)/len(all_lengths)` of line 178. -/
def pyMean (xs : List Nat) : Rat := (xs.sum : Rat) / (xs.length : Rat)

/-- `np.median` (line 179): sort ascending; the middle element for odd
length, the average of the two middle elements for even length. -/
def npMedian (xs : List Nat) : Rat :=
  let s := List.insertionSort (· ≤ ·) xs
  let n := s.length
  if n % 2 = 1 then ((s.getD (n / 2) 0 : Nat) : Rat)
  else (((s.getD (n / 2 - 1) 0 : Nat) : Rat) + ((s.getD (n / 2) 0 : Nat) : Rat)) / 2

/-- One chunk written to the report file by `generate_report`.  Consecutive
`f.write` calls that cannot be separated by an exception are grouped into a
single chunk; a boundary is kept wherever a Python expression evaluated
between two writes can raise. -/
inductive Chunk where
  | header : String → String → Int → Chunk
  | headline : Nat → Nat → Rat → Chunk
  | statsHeader : Chunk
  | statsBlock : Nat → Nat → Rat → Rat → Chunk
  | distHeader : Chunk
  | distLine : String → Nat → Rat → Chunk
  | idHeader : Nat → Chunk
  | idLine : Nat → String → Chunk
  | separatorLine : Chunk
  deriving DecidableEq, Repr

/-- The six distribution lines of lines 200-202 (label, count, percentage),
in bucket order. -/
def distChunks (min_length : Int) (lengths : List Nat) (total_count : Nat) :
    List Chunk :=
  (List.range 6).map (fun i =>
    Chunk.distLine ((bucketLabels min_length).getD i "")
      (binCountsLoop min_length (natsToInts lengths) i)
      (distPercent min_length lengths total_count i))

/-- The identifier listing of lines 208-211: 1-indexed identifiers with one
separator after every fiftieth entry. -/
def idChunks : List String → Nat → List Chunk
  | [], _ => []
  | ident :: rest, i =>
    Chunk.idLine (i + 1) ident ::
      (if (i + 1) % 50 = 0 then Chunk.separatorLine :: idChunks rest (i + 1)
       else idChunks rest (i + 1))

/-- Embeds `generate_report` (lines 139-213) as its sequence of writes to
the opened report file and the run's outcome.  Line 152 computes the
headline percentage, falling back to `0` when `total_count == 0`; the
header block (lines 159-165), the headline block (lines 168-171) and the
statistics section header (lines 174-175) are then written; `min(all_lengths)`
at line 176 raises `ValueError` when `all_lengths` is empty, after those
writes; otherwise the statistics block is written, the distribution header
(lines 182-183) is written, and the first percentage at line 201 raises
`ZeroDivisionError` when `total_count == 0`; otherwise the six distribution
lines, the identifier-listing header (lines 205-207) and the identifier
lines are written and the call returns normally. -/
def generate_report (inputLabel outputLabel : String) (min_length : Int)
    (long_count total_count : Nat) (long_ids : List String)
    (all_lengths : List Nat) : List Chunk × Except PyError Unit :=
  let percentage : Rat :=
    if 0 < total_count then (long_count : Rat) / (total_count : Rat) * 100 else 0
  let pre : List Chunk :=
    [Chunk.header inputLabel outputLabel min_length,
      Chunk.headline total_count long_count percentage, Chunk.statsHeader]
  match all_lengths with
  | [] => (pre, .error .valueError)
  | x :: xs =>
    let stats := Chunk.statsBlock (pyMin x xs) (pyMax x xs)
      (pyMean (x :: xs)) (npMedian (x :: xs))
    if total_count = 0 then
      (pre ++ [stats, Chunk.distHeader], .error .zeroDivisionError)
    else
      (pre ++ [stats, Chunk.distHeader] ++
        distChunks min_length (x :: xs) total_count ++
        [Chunk.idHeader long_ids.length] ++ idChunks long_ids 0, .ok ())

/-- Modelled from the spec: the whitespace test used when stripping body
lines and splitting the header token (spec sections 4.1, 6); the source
delegates this to `Bio.SeqIO.parse`, which is not part of this
repository. -/
def isWS (c : Char) : Bool := c == ' ' || c == '\t' || c == '\r' || c == '\n'

/-- Modelled from the spec: strip leading and trailing whitespace from a
body line before concatenation (spec section 4.1). -/
def stripWS (s : List Char) : List Char :=
  ((s.dropWhile isWS).reverse.dropWhile isWS).reverse

/-- Modelled from the spec: the identifier is the first
whitespace-delimited token after the header marker (spec section 4.1). -/
def firstToken (s : List Char) : List Char :=
  (s.dropWhile isWS).takeWhile (fun c => !(isWS c))

/-- Modelled from the spec: the record parser (spec sections 4.1 and 6),
standing in for `Bio.SeqIO.parse`, which is external to this repository.
A record starts at a header line (marker `'>'`); its identifier is the
first whitespace-delimited token after the marker; stripped body lines are
concatenated until the next header or end of stream; the unterminated final
record is flushed at end of stream; non-blank body content before any
header is a `formatError` carrying the line number; an input with no
headers yields the empty record list. -/
def parseLinesAux : List (List Char) → Option (String × List Char) → Nat →
    Except PyError (List FastaRecord)
  | [], none, _ => .ok []
  | [], some cur, _ => .ok [⟨cur.1, cur.2⟩]
  | line :: rest, cur, lineNo =>
    match line with
    | '>' :: tail =>
      match cur with
      | none => parseLinesAux rest (some (String.mk (firstToken tail), [])) (lineNo + 1)
      | some c =>
        match parseLinesAux rest (some (String.mk (firstToken tail), [])) (lineNo + 1) with
        | .ok rs => .ok (⟨c.1, c.2⟩ :: rs)
        | .error e => .error e
    | _ =>
      match cur with
      | none =>
        if stripWS line = [] then parseLinesAux rest none (lineNo + 1)
        else .error (.formatError lineNo)
      | some c => parseLinesAux rest (some (c.1, c.2 ++ stripWS line)) (lineNo + 1)

/-- Modelled from the spec: parse a whole input, given as its list of lines
(each a character list), starting at line number 1. -/
def parseFasta (lines : List (List Char)) : Except PyError (List FastaRecord) :=
  parseLinesAux lines none 1

/-- Embeds the pipeline sequencing of `main` (lines 254-263) downstream of
the parse stage, whose outcome (`Bio.SeqIO.parse` succeeding with a record
list, or failing with a format or I/O error) is the first argument.  The
first component is the report file's content: `none` when the run fails
before `generate_report` opens the file, otherwise the written chunks.
`plot_length_distribution` runs before `generate_report` and evaluates
`min(all_lengths)` at line 107, so an empty corpus raises `ValueError`
there, before the report file is opened. -/
def runPipeline (parsed : Except PyError (List FastaRecord)) (min_length : Int)
    (inputLabel outputLabel : String) :
    Option (List Chunk) × Except PyError Unit :=
  match parsed with
  | .error e => (none, .error e)
  | .ok records =>
    let r := count_long_sequences records min_length
    match r.all_lengths with
    | [] => (none, .error .valueError)
    | _ :: _ =>
      let rep := generate_report inputLabel outputLabel min_length
        r.long_count r.total_count r.long_ids r.all_lengths
      (some rep.1, rep.2)

/-! ### Bucket coverage -/

/-- Every non-negative length falls in exactly one of the six reported
buckets: the first-match scan returns an index below six. -/
theorem bucketIndex_covers (m L : Int) (hL : 0 ≤ L) :
    ∃ j, bucketIndex m L = some j ∧ j < 6 := by
  unfold bucketIndex
  split_ifs <;>
    first
      | exact ⟨0, rfl, by omega⟩
      | exact ⟨1, rfl, by omega⟩
      | exact ⟨2, rfl, by omega⟩
      | exact ⟨3, rfl, by omega⟩
      | exact ⟨4, rfl, by omega⟩
      | exact ⟨5, rfl, by omega⟩
      | (exfalso; omega)

theorem binCountsLoop_cons (m L : Int) (rest : List Int) (i : Nat) :
    binCountsLoop m (L :: rest) i =
      (if bucketIndex m L = some i then 1 else 0) + binCountsLoop m rest i := rfl

theorem sumSixCounts_cons (m L : Int) (rest : List Int) (hL : 0 ≤ L) :
    sumSixCounts m (L :: rest) = sumSixCounts m rest + 1 := by
  obtain ⟨j, hj, hj6⟩ := bucketIndex_covers m L hL
  unfold sumSixCounts
  simp only [binCountsLoop_cons, hj, Option.some.injEq]
  interval_cases j <;> simp <;> omega

theorem sumSixCounts_eq_length (m : Int) (lengths : List Int)
    (h : ∀ L ∈ lengths, 0 ≤ L) : sumSixCounts m lengths = lengths.length := by
  induction lengths with
  | nil => rfl
  | cons L rest ih =>
    rw [sumSixCounts_cons m L rest (h L (List.mem_cons_self L rest)),
      ih (fun x hx => h x (List.mem_cons_of_mem L hx))]
    simp

/-! ### Analyzer characterization -/

theorem count_long_sequences_cons (r : FastaRecord) (rest : List FastaRecord)
    (m : Int) :
    count_long_sequences (r :: rest) m =
      if (seqLength r.seq : Int) > m then
        ⟨(count_long_sequences rest m).long_count + 1,
          (count_long_sequences rest m).total_count + 1,
          r.id :: (count_long_sequences rest m).long_ids,
          seqLength r.seq :: (count_long_sequences rest m).all_lengths⟩
      else
        ⟨(count_long_sequences rest m).long_count,
          (count_long_sequences rest m).total_count + 1,
          (count_long_sequences rest m).long_ids,
          seqLength r.seq :: (count_long_sequences rest m).all_lengths⟩ := rfl

theorem total_count_eq (records : List FastaRecord) (m : Int) :
    (count_long_sequences records m).total_count = records.length := by
  induction records with
  | nil => rfl
  | cons r rest ih =>
    rw [count_long_sequences_cons]
    split_ifs <;> simp [ih]

theorem all_lengths_eq (records : List FastaRecord) (m : Int) :
    (count_long_sequences records m).all_lengths =
      records.map (fun rec => seqLength rec.seq) := by
  induction records with
  | nil => rfl
  | cons r rest ih =>
    rw [count_long_sequences_cons]
    split_ifs <;> simp [ih]

theorem long_ids_eq (records : List FastaRecord) (m : Int) :
    (count_long_sequences records m).long_ids =
      (records.filter
          (fun rec => decide (m < (seqLength rec.seq : Int)))).map FastaRecord.id := by
  induction records with
  | nil => rfl
  | cons r rest ih =>
    rw [count_long_sequences_cons]
    split_ifs with h
    · simp [List.filter_cons, h, ih]
    · simp [List.filter_cons, h, ih]

theorem long_count_eq_ids_length (records : List FastaRecord) (m : Int) :
    (count_long_sequences records m).long_count =
      (count_long_sequences records m).long_ids.length := by
  induction records with
  | nil => rfl
  | cons r rest ih =>
    rw [count_long_sequences_cons]
    split_ifs <;> simp [ih]

theorem sumSix_analyzer (records : List FastaRecord) (m : Int) :
    sumSixCounts m (natsToInts (count_long_sequences records m).all_lengths) =
      (count_long_sequences records m).total_count := by
  have h : ∀ L ∈ natsToInts (count_long_sequences records m).all_lengths,
      0 ≤ L := by
    intro L hL
    simp only [natsToInts, List.mem_map] at hL
    obtain ⟨x, _, rfl⟩ := hL
    exact Int.ofNat_nonneg x
  rw [sumSixCounts_eq_length m _ h, natsToInts, List.length_map, all_lengths_eq,
    List.length_map, total_count_eq]

/-! ### Claims -/

/-- C1: for every record list and every integer threshold (degenerate ones
included), the six bucket counts printed by the distribution block sum to
`total_count`: every length is counted by exactly one of the six
first-match half-open ranges. -/
theorem claim1_bucket_counts_sum (records : List FastaRecord) (min_length : Int) :
    sumSixCounts min_length
        (natsToInts (count_long_sequences records min_length).all_lengths) =
      (count_long_sequences records min_length).total_count :=
  sumSix_analyzer records min_length

/-- A threshold at most 300 makes the third range `[300, threshold)`
inverted or empty, so the first-match scan never selects index 2. -/
theorem bucketIndex_ne_two (m L : Int) (hm : m ≤ 300) :
    bucketIndex m L ≠ some 2 := by
  unfold bucketIndex
  split_ifs <;> (simp; try omega)

/-- A threshold at least 500 makes the fourth range `[threshold, 500)`
inverted or empty, so the first-match scan never selects index 3. -/
theorem bucketIndex_ne_three (m L : Int) (hm : 500 ≤ m) :
    bucketIndex m L ≠ some 3 := by
  unfold bucketIndex
  split_ifs <;> (simp; try omega)

theorem binCountsLoop_eq_zero_of_ne (m : Int) (lengths : List Int) (i : Nat)
    (h : ∀ L, bucketIndex m L ≠ some i) : binCountsLoop m lengths i = 0 := by
  induction lengths with
  | nil => rfl
  | cons L rest ih => simp [binCountsLoop_cons, h L, ih]

/-- C6: for every threshold making a bucket range inverted or empty
(threshold at most 300 for the `[300, threshold)` bucket, threshold at
least 500 for the `[threshold, 500)` bucket), the binner — a total
function, so no error is raised — gives that bucket count 0 on every
length list; in particular threshold 300 gives the `[300, threshold)`
bucket count 0. -/
theorem claim6_inverted_range_empty (lengths : List Int) (min_length : Int) :
    (min_length ≤ 300 → binCountsLoop min_length lengths 2 = 0) ∧
    (500 ≤ min_length → binCountsLoop min_length lengths 3 = 0) ∧
    binCountsLoop 300 lengths 2 = 0 :=
  ⟨fun hm => binCountsLoop_eq_zero_of_ne _ _ _ (fun L => bucketIndex_ne_two _ L hm),
    fun hm => binCountsLoop_eq_zero_of_ne _ _ _ (fun L => bucketIndex_ne_three _ L hm),
    binCountsLoop_eq_zero_of_ne _ _ _ (fun L => bucketIndex_ne_two _ L (by norm_num))⟩

/-- C6 witness: the inverted ranges are empty at the spec's degenerate
thresholds 50 and 600 on concrete length lists. -/
theorem claim6_witness :
    binCountsLoop 50 [0, 150, 350, 700, 1200] 2 = 0 ∧
      binCountsLoop 600 [0, 350, 700] 3 = 0 :=
  ⟨(claim6_inverted_range_empty [0, 150, 350, 700, 1200] 50).1 (by norm_num),
    (claim6_inverted_range_empty [0, 350, 700] 600).2.1 (by norm_num)⟩

/-! ### Gap normalization -/

theorem removeGaps_eq_filter (s : List Char) :
    removeGaps s = s.filter (fun c => !(c == '-')) := by
  induction s with
  | nil => rfl
  | cons c cs ih =>
    unfold removeGaps
    by_cases h : c = '-' <;> simp [h, List.filter_cons, ih]

theorem seqLength_eq_countP (s : List Char) :
    seqLength s = s.countP (fun c => !(c == '-')) := by
  rw [seqLength, removeGaps_eq_filter, List.countP_eq_length_filter]

theorem seqLength_perm (s t : List Char) (h : s.Perm t) :
    seqLength s = seqLength t := by
  rw [seqLength_eq_countP, seqLength_eq_countP]
  exact h.countP_eq _

/-- C4: the computed `normalized_length` equals the number of characters of
the body that are not the gap character `'-'`, so it does not depend on
where the gaps sit: permuting the body preserves it, and the bodies
`"AC--GT"` and `"ACGT--"` both yield 4. -/
theorem claim4_normalized_length (s t : List Char) :
    seqLength s = s.countP (fun c => !(c == '-')) ∧
    (s.Perm t → seqLength s = seqLength t) ∧
    seqLength "AC--GT".data = 4 ∧ seqLength "ACGT--".data = 4 :=
  ⟨seqLength_eq_countP s, fun h => seqLength_perm s t h, by decide, by decide⟩

/-- C4 witness: the characterization at the body `"AC--GT"`, and
position-independence at the concrete rearrangement `"--ACGT"`. -/
theorem claim4_witness :
    seqLength "AC--GT".data = "AC--GT".data.countP (fun c => !(c == '-')) ∧
      seqLength "AC--GT".data = seqLength "--ACGT".data :=
  ⟨(claim4_normalized_length "AC--GT".data "--ACGT".data).1,
    (claim4_normalized_length "AC--GT".data "--ACGT".data).2.1 (by decide)⟩

/-- C5: `long_count` equals the length of `long_ids`; both equal the number
of accumulated lengths strictly greater than the threshold (a record whose
length equals the threshold exactly is not long); and `long_ids` is exactly
the identifiers of the strictly-long records, in parse order. -/
theorem claim5_long_count_ids (records : List FastaRecord) (min_length : Int) :
    (count_long_sequences records min_length).long_count =
        (count_long_sequences records min_length).long_ids.length ∧
    (count_long_sequences records min_length).long_count =
        ((natsToInts (count_long_sequences records min_length).all_lengths).filter
          (fun L => decide (min_length < L))).length ∧
    (count_long_sequences records min_length).long_ids =
        (records.filter
          (fun rec => decide (min_length < (seqLength rec.seq : Int)))).map
          FastaRecord.id := by
  refine ⟨long_count_eq_ids_length records min_length, ?_,
    long_ids_eq records min_length⟩
  rw [long_count_eq_ids_length, long_ids_eq, all_lengths_eq, natsToInts,
    List.filter_map, List.filter_map, List.length_map, List.length_map,
    List.length_map]
  rfl

/-- C9: for a fixed record list, raising the threshold can only shrink the
long-record set: with thresholds `t1 ≤ t2`, the `long_count` at `t2` is at
most the one at `t1`, and the `long_ids` at `t2` form a sublist (an
order-preserving subsequence) of the ones at `t1`. -/
theorem claim9_threshold_antitone (records : List FastaRecord) (t1 t2 : Int)
    (h : t1 ≤ t2) :
    (count_long_sequences records t2).long_count ≤
        (count_long_sequences records t1).long_count ∧
    (count_long_sequences records t2).long_ids.Sublist
        (count_long_sequences records t1).long_ids := by
  have hsub : (count_long_sequences records t2).long_ids.Sublist
      (count_long_sequences records t1).long_ids := by
    rw [long_ids_eq, long_ids_eq]
    refine List.Sublist.map _ (List.monotone_filter_right records ?_)
    intro rec hrec
    simp only [decide_eq_true_eq] at hrec ⊢
    omega
  refine ⟨?_, hsub⟩
  rw [long_count_eq_ids_length, long_count_eq_ids_length]
  exact hsub.length_le

/-- C9 witness: a concrete one-record corpus at thresholds 100 and 500. -/
theorem claim9_witness :
    (count_long_sequences [⟨"a", ['M', 'K', 'V']⟩] 500).long_count ≤
      (count_long_sequences [⟨"a", ['M', 'K', 'V']⟩] 100).long_count :=
  (claim9_threshold_antitone [⟨"a", ['M', 'K', 'V']⟩] 100 500 (by norm_num)).1

/-- C10: for every input and threshold, `long_count` is a natural number
bounded by `total_count`, `all_lengths` has exactly `total_count` entries,
and every accumulated length is a non-negative integer. -/
theorem claim10_analyzer_invariants (records : List FastaRecord)
    (min_length : Int) :
    0 ≤ (count_long_sequences records min_length).long_count ∧
    (count_long_sequences records min_length).long_count ≤
        (count_long_sequences records min_length).total_count ∧
    (count_long_sequences records min_length).all_lengths.length =
        (count_long_sequences records min_length).total_count ∧
    ∀ L ∈ (count_long_sequences records min_length).all_lengths,
      0 ≤ (L : Int) := by
  refine ⟨Nat.zero_le _, ?_, ?_, ?_⟩
  · rw [long_count_eq_ids_length, long_ids_eq, total_count_eq, List.length_map]
    exact (List.length_filter_le _ _).trans (Nat.le_refl _)
  · rw [all_lengths_eq, total_count_eq, List.length_map]
  · intro L _
    exact Int.ofNat_nonneg L

/-! ### Percentage arithmetic -/

theorem all_lengths_length (records : List FastaRecord) (m : Int) :
    (count_long_sequences records m).all_lengths.length =
      (count_long_sequences records m).total_count := by
  rw [all_lengths_eq, total_count_eq, List.length_map]

/-- C7: for every corpus and threshold, when `total_count > 0` the six
per-bucket percentages `count / total_count * 100`, taken in exact rational
arithmetic, sum to exactly 100. -/
theorem claim7_percentages_sum (records : List FastaRecord) (min_length : Int)
    (h : 0 < (count_long_sequences records min_length).total_count) :
    ((List.range 6).map (fun i =>
        distPercent min_length
          (count_long_sequences records min_length).all_lengths
          (count_long_sequences records min_length).total_count i)).sum = 100 := by
  have hsum := sumSix_analyzer records min_length
  unfold sumSixCounts at hsum
  have hT0 : ((count_long_sequences records min_length).total_count : Rat) ≠ 0 :=
    Nat.cast_ne_zero.mpr h.ne'
  have h6 : List.range 6 = [0, 1, 2, 3, 4, 5] := rfl
  rw [h6]
  simp only [List.map_cons, List.map_nil, List.sum_cons, List.sum_nil,
    distPercent]
  have hcast : ((binCountsLoop min_length
        (natsToInts (count_long_sequences records min_length).all_lengths) 0 +
      binCountsLoop min_length
        (natsToInts (count_long_sequences records min_length).all_lengths) 1 +
      binCountsLoop min_length
        (natsToInts (count_long_sequences records min_length).all_lengths) 2 +
      binCountsLoop min_length
        (natsToInts (count_long_sequences records min_length).all_lengths) 3 +
      binCountsLoop min_length
        (natsToInts (count_long_sequences records min_length).all_lengths) 4 +
      binCountsLoop min_length
        (natsToInts (count_long_sequences records min_length).all_lengths) 5 : Nat) : Rat) =
      ((count_long_sequences records min_length).total_count : Rat) := by
    exact_mod_cast hsum
  push_cast at hcast
  field_simp
  linarith

/-- C7 witness: a concrete one-record corpus at the default threshold. -/
theorem claim7_witness :
    ((List.range 6).map (fun i =>
        distPercent 428
          (count_long_sequences [⟨"seq1", ['M', 'K']⟩] 428).all_lengths
          (count_long_sequences [⟨"seq1", ['M', 'K']⟩] 428).total_count i)).sum
      = 100 :=
  claim7_percentages_sum [⟨"seq1", ['M', 'K']⟩] 428 (by decide)

/-! ### Empty corpus behaviour -/

/-- C2 counterexample: on the empty input the code never signals an
`EmptyCorpusError`.  The analyzer silently returns all-zero results, the
pipeline fails with the generic `valueError` that `min` raises on the empty
length list inside the plotting step (line 107), and `generate_report`,
were it reached with the empty corpus, would write the headline percentage
as the silent zero default of line 152 before failing the same way at line
176 — after three chunks of the report are already written. -/
theorem claim2_counterexample :
    count_long_sequences [] 428 = ⟨0, 0, [], []⟩ ∧
    runPipeline (.ok []) 428 "input.fasta" "report.txt" =
      (none, .error .valueError) ∧
    PyError.valueError ≠ PyError.emptyCorpusError ∧
    (generate_report "input.fasta" "report.txt" 428 0 0 [] []).1 =
      [Chunk.header "input.fasta" "report.txt" 428, Chunk.headline 0 0 0,
        Chunk.statsHeader] ∧
    (generate_report "input.fasta" "report.txt" 428 0 0 [] []).2 =
      .error .valueError :=
  ⟨rfl, rfl, by decide, rfl, rfl⟩

/-- C2 amended: for every threshold and labels, an input with zero records
makes the analyzer return zero counts and empty lists without signalling
anything; the run then fails with the built-in `valueError` (never an
`EmptyCorpusError`), and the report stage, applied to the empty corpus,
computes the headline percentage as the silent default 0 (line 152) and
fails with `valueError` at `min` (line 176). -/
theorem claim2_empty_corpus_silent (min_length : Int) (inLbl outLbl : String) :
    count_long_sequences [] min_length = ⟨0, 0, [], []⟩ ∧
    runPipeline (.ok []) min_length inLbl outLbl = (none, .error .valueError) ∧
    (generate_report inLbl outLbl min_length 0 0 [] []).1 =
      [Chunk.header inLbl outLbl min_length, Chunk.headline 0 0 0,
        Chunk.statsHeader] ∧
    (generate_report inLbl outLbl min_length 0 0 [] []).2 = .error .valueError :=
  ⟨rfl, rfl, rfl, rfl⟩

/-! ### The concrete record scenario -/

/-- C3 counterexample: parsing the record with header identifier `seq1` and
body `"MK--VLA-"` yields normalized length 5, not 6: the body has eight
characters, three of which are the gap character. -/
theorem claim3_counterexample :
    parseFasta [">seq1".data, "MK--VLA-".data] =
      .ok [⟨"seq1", "MK--VLA-".data⟩] ∧
    seqLength "MK--VLA-".data = 5 ∧ (5 : Nat) ≠ 6 :=
  ⟨rfl, rfl, by decide⟩

/-- C3 amended: the record with header identifier `seq1` and body
`"MK--VLA-"` parses to identifier `seq1`, and its normalized length — for
any threshold — is 5. -/
theorem claim3_record_length (min_length : Int) :
    parseFasta [">seq1".data, "MK--VLA-".data] =
      .ok [⟨"seq1", "MK--VLA-".data⟩] ∧
    (count_long_sequences [⟨"seq1", "MK--VLA-".data⟩] min_length).all_lengths =
      [5] := by
  refine ⟨rfl, ?_⟩
  rw [all_lengths_eq]
  rfl

/-! ### No partial report on failure -/

theorem generate_report_ok (inLbl outLbl : String) (m : Int) (lc tc : Nat)
    (ids : List String) (x : Nat) (xs : List Nat) (htc : tc ≠ 0) :
    (generate_report inLbl outLbl m lc tc ids (x :: xs)).2 = .ok () := by
  simp [generate_report, htc]

/-- C8: during a pipeline invocation every failure — a format or I/O error
surfaced by the parse stage, or the `valueError` of an empty corpus, raised
in the plotting step — happens before the report file is opened, so a
failing run writes nothing to the report destination; and whenever report
content exists it is the complete output of a successfully finished
`generate_report`. -/
theorem claim8_no_partial_report (parsed : Except PyError (List FastaRecord))
    (min_length : Int) (inLbl outLbl : String) :
    (∀ e, (runPipeline parsed min_length inLbl outLbl).2 = Except.error e →
        (runPipeline parsed min_length inLbl outLbl).1 = none) ∧
    (∀ records t, parsed = Except.ok records →
        (runPipeline parsed min_length inLbl outLbl).1 = some t →
        generate_report inLbl outLbl min_length
            (count_long_sequences records min_length).long_count
            (count_long_sequences records min_length).total_count
            (count_long_sequences records min_length).long_ids
            (count_long_sequences records min_length).all_lengths =
          (t, Except.ok ())) := by
  cases parsed with
  | error e =>
    exact ⟨fun _ _ => rfl, fun records t hok => absurd hok (by simp)⟩
  | ok records =>
    rcases hL : (count_long_sequences records min_length).all_lengths
      with _ | ⟨x, xs⟩
    · constructor
      · intro e _
        simp [runPipeline, hL]
      · intro records' t hok hsome
        injection hok with hrec
        subst hrec
        simp [runPipeline, hL] at hsome
    · have htc : (count_long_sequences records min_length).total_count ≠ 0 := by
        have hlen := all_lengths_length records min_length
        rw [hL] at hlen
        simp only [List.length_cons] at hlen
        omega
      constructor
      · intro e he
        exfalso
        have hsnd : (runPipeline (Except.ok records) min_length inLbl outLbl).2 =
            (generate_report inLbl outLbl min_length
              (count_long_sequences records min_length).long_count
              (count_long_sequences records min_length).total_count
              (count_long_sequences records min_length).long_ids (x :: xs)).2 := by
          simp [runPipeline, hL]
        rw [hsnd, generate_report_ok _ _ _ _ _ _ _ _ htc] at he
        exact Except.noConfusion he
      · intro records' t hok hsome
        injection hok with hrec
        subst hrec
        have hfst : (runPipeline (Except.ok records) min_length inLbl outLbl).1 =
            some (generate_report inLbl outLbl min_length
              (count_long_sequences records min_length).long_count
              (count_long_sequences records min_length).total_count
              (count_long_sequences records min_length).long_ids (x :: xs)).1 := by
          simp [runPipeline, hL]
        rw [hfst] at hsome
        injection hsome with ht
        rw [hL, Prod.ext_iff]
        exact ⟨ht, generate_report_ok _ _ _ _ _ _ _ _ htc⟩

/-- C8 witness: a parse-stage format error leaves the report unwritten. -/
theorem claim8_witness :
    (runPipeline (.error (.formatError 1)) 428 "input.fasta" "report.txt").1 =
      none :=
  (claim8_no_partial_report (.error (.formatError 1)) 428 "input.fasta"
    "report.txt").1 (.formatError 1) rfl

end CountLongSeq
